import Mathlib

/-!
Verification of the Turkish lexicon-based sentiment analyzer
(`turkish_sentiment.py`, class `TurkishSentimentAnalyzer`).

Shallow embedding conventions:
* Python floats are modelled as exact rationals (`ℚ`); all constants in the
  source (`0.5`, `0.7`, `1.3`, …) are decimal literals, read here as the exact
  rationals they denote.
* Python sets of strings are modelled as `List String` with `List.contains`
  membership; the dict `intensifiers` as an association list with
  `List.lookup`.
* `str.lower()` is modelled by mapping `Char.toLower` over the characters.
  This is exact on ASCII letters and the identity elsewhere; every
  non-ASCII character occurring in the lexicons and in the concrete inputs
  used below is already lower-case, so the model agrees with Python on them.
* `str.split()` (split on whitespace runs, dropping empty pieces) and
  `str.count` are implemented by structural recursion over the character
  list of the string.
* The guard `not text or not text.strip()` of `analyze` is modelled by
  `text = "" ∨ strippedEmpty text` where `strippedEmpty` tests that every
  character is whitespace (Python's `strip()` with no argument strips
  whitespace, so `text.strip()` is falsy exactly when all characters are
  whitespace).
* `round(x, 3)` is modelled by `round3`; no statement below depends on the
  tie-breaking rule of Python's rounding.
* The Python dict returned by `analyze` is modelled as an association list
  `List (String × PyVal)` in the literal key order of the source.
* The optional spaCy pipeline `nlp` is modelled as an
  `Option (String → SpacyFeatures)`: an optional black box producing the
  part-of-speech and entity counts for a text.
-/

namespace TurkishSentiment

/-- The set `self.positive_words` from `TurkishSentimentAnalyzer.__init__`. -/
def positive_words : List String :=
  ["güzel", "harika", "muhteşem", "mükemmel", "süper", "başarılı",
   "iyi", "hoş", "sevdim", "beğendim", "mutlu", "keyifli", "eğlenceli",
   "kaliteli", "başarı", "tebrikler", "bravo", "aferin", "teşekkür",
   "sağolun", "minnettar", "şahane", "enfes", "kusursuz", "efsane",
   "nefis", "olağanüstü", "parlak", "görkemli", "fevkalade",
   "hayran", "takdir", "övgü", "sevinç", "zevk", "huzur",
   "masal", "rüya", "cennet", "mucize", "hayal", "gurur"]

/-- The set `self.negative_words` from `TurkishSentimentAnalyzer.__init__`. -/
def negative_words : List String :=
  ["kötü", "berbat", "rezalet", "çöp", "boktan", "iğrenç", "tiksinç",
   "vasat", "beğenmedim", "sevmedim", "sıkıcı", "can", "üzücü",
   "fena", "boş", "saçma", "anlamsız", "zayıf", "eksik", "yetersiz",
   "başarısız", "kırık", "bozuk", "sorunlu", "problem", "hata",
   "korkunç", "dehşet", "felaket", "trajedi", "acı", "ızdırap",
   "pişman", "hayal", "kırıklığı", "üzüntü", "öfke", "sinir",
   "nefret", "tiksinti", "ihanet", "yalan", "aldatma", "hile"]

/-- The dict `self.intensifiers` from `TurkishSentimentAnalyzer.__init__`:
word → multiplier. -/
def intensifiers : List (String × ℚ) :=
  [("çok", 1.5), ("fazla", 1.3), ("aşırı", 1.8), ("son", 1.4), ("derece", 1.4),
   ("gerçekten", 1.3), ("kesinlikle", 1.5), ("tamamen", 1.4), ("oldukça", 1.3),
   ("gayet", 1.2), ("epey", 1.3), ("bayağı", 1.3), ("bir", 1.2), ("hayli", 1.3)]

/-- The set `self.negations` from `TurkishSentimentAnalyzer.__init__`. -/
def negations : List String := ["değil", "yok", "hiç", "asla", "hayır"]

/-- The local list `positive_emojis` in `extract_features`. -/
def positive_emojis : List String :=
  ["😊", "😀", "😁", "🙂", "😍", "🥰", "❤️", "👍", "✨", "🎉"]

/-- The local list `negative_emojis` in `extract_features`. -/
def negative_emojis : List String :=
  ["😢", "😭", "😞", "😔", "😡", "😠", "💔", "👎", "😰", "😨"]

/-- Auxiliary for Python's `str.count(pat)`: number of non-overlapping
occurrences of a non-empty pattern, scanning left to right.  `fuel` bounds
the recursion depth; `fuel = l.length` always suffices since every step
consumes at least one character. -/
def countOccsAux (pat : List Char) : Nat → List Char → Nat
  | 0, _ => 0
  | fuel + 1, l =>
    match l with
    | [] => 0
    | c :: rest =>
      if pat.isPrefixOf (c :: rest) ∧ pat ≠ [] then
        1 + countOccsAux pat fuel (List.drop (pat.length - 1) rest)
      else
        countOccsAux pat fuel rest

/-- Python's `text.count(pat)` for a non-empty pattern. -/
def strCount (text pat : String) : Nat :=
  countOccsAux pat.data text.data.length text.data

/-- Python's `str.lower()` (exact on ASCII; identity on the non-ASCII
characters occurring here, which are already lower-case). -/
def pyLower (s : String) : String := String.mk (s.data.map Char.toLower)

/-- Auxiliary for Python's `str.split()`: split a character list at
whitespace runs, accumulating the current (reversed) word. -/
def wsSplitAux : List Char → List Char → List String
  | [], cur => if cur.isEmpty then [] else [String.mk cur.reverse]
  | c :: cs, cur =>
    if c.isWhitespace then
      if cur.isEmpty then wsSplitAux cs []
      else String.mk cur.reverse :: wsSplitAux cs []
    else wsSplitAux cs (c :: cur)

/-- Python's `str.split()` with no argument: split on whitespace runs and
drop empty pieces. -/
def pySplit (s : String) : List String := wsSplitAux s.data []

/-- The token sequence `text.lower().split()` used for lexicon lookups
(line `words = text.lower().split()`). -/
def tokenize (text : String) : List String := pySplit (pyLower text)

/-- Python's `not text.strip()`: true iff every character is whitespace
(in particular for the empty string). -/
def strippedEmpty (s : String) : Bool := s.data.all Char.isWhitespace

/-- The spaCy-derived fields of the feature dict (`noun_count`, `verb_count`,
`adj_count`, `adv_count`, `entity_count`), present only when `self.nlp`
was supplied. -/
structure SpacyFeatures where
  noun_count : Nat
  verb_count : Nat
  adj_count : Nat
  adv_count : Nat
  entity_count : Nat
deriving DecidableEq

/-- The feature dict built by `extract_features`.  The spaCy block is
`Option`-valued: `none` mirrors those fields being absent when `self.nlp`
is `None`. -/
structure Features where
  text_length : Nat
  word_count : Nat
  avg_word_length : ℚ
  exclamation_count : Nat
  question_count : Nat
  uppercase_ratio : ℚ
  positive_emoji_count : Nat
  negative_emoji_count : Nat
  positive_word_count : Nat
  negative_word_count : Nat
  intensifier_count : Nat
  negation_count : Nat
  spacy : Option SpacyFeatures
deriving DecidableEq

/-- The method `TurkishSentimentAnalyzer.extract_features`.  `nlp` is the optional
annotator injected at construction (`self.nlp`). -/
def extract_features (nlp : Option (String → SpacyFeatures)) (text : String) :
    Features :=
  let rawWords := pySplit text
  let words := tokenize text
  { text_length := text.data.length
    word_count := rawWords.length
    avg_word_length :=
      if rawWords = [] then 0
      else ((rawWords.map (fun w => (w.data.length : ℚ))).sum) /
        (rawWords.length : ℚ)
    exclamation_count := strCount text "!"
    question_count := strCount text "?"
    uppercase_ratio :=
      if text = "" then 0
      else ((text.data.countP Char.isUpper : ℚ)) / (text.data.length : ℚ)
    positive_emoji_count := (positive_emojis.map (fun e => strCount text e)).sum
    negative_emoji_count := (negative_emojis.map (fun e => strCount text e)).sum
    positive_word_count := words.countP (fun w => positive_words.contains w)
    negative_word_count := words.countP (fun w => negative_words.contains w)
    intensifier_count :=
      words.countP (fun w => (List.lookup w intensifiers).isSome)
    negation_count := words.countP (fun w => negations.contains w)
    spacy := nlp.map (fun f => f text) }

/-- The intensifier loop of `calculate_sentiment_score` (lines 110–120):
for each token that is an intensifier key, look at the immediately
following token (if any); add `0.5 * multiplier` to `pos` if it is a
positive word, else to `neg` if it is a negative word.  A token with no
following token (`i + 1 < len(words)` fails) contributes nothing. -/
def applyIntensifiers : List String → ℚ × ℚ → ℚ × ℚ
  | [], s => s
  | [_], s => s
  | w :: next :: rest, (p, n) =>
    applyIntensifiers (next :: rest)
      (match List.lookup w intensifiers with
       | some m =>
         if positive_words.contains next then (p + 0.5 * m, n)
         else if negative_words.contains next then (p, n + 0.5 * m)
         else (p, n)
       | none => (p, n))

/-- The negation loop of `calculate_sentiment_score` (lines 122–129): on the
first token that is a negation marker, set
`pos, neg = neg * 0.7, pos * 0.7` and `break`. -/
def applyNegation : List String → ℚ × ℚ → ℚ × ℚ
  | [], s => s
  | w :: rest, (p, n) =>
    if negations.contains w then (n * 0.7, p * 0.7)
    else applyNegation rest (p, n)

/-- Lines 106–140 of `calculate_sentiment_score`: base lexicon counts,
intensifier loop, negation loop, emoji contribution and exclamation
intensification, producing the final `(pos_score, neg_score)` pair fed into
the normalization step.  Inputs are the token sequence and the
emoji/exclamation counts of the feature record. -/
def finalScores (words : List String) (posEmoji negEmoji exclam : Nat) :
    ℚ × ℚ :=
  let pos0 : ℚ := words.countP (fun w => positive_words.contains w)
  let neg0 : ℚ := words.countP (fun w => negative_words.contains w)
  let s1 := applyIntensifiers words (pos0, neg0)
  let s2 := applyNegation words s1
  let pos3 := s2.1 + (posEmoji : ℚ) * 0.5
  let neg3 := s2.2 + (negEmoji : ℚ) * 0.5
  if exclam > 0 then
    if pos3 > neg3 then (pos3 * (1 + (exclam : ℚ) * 0.1), neg3)
    else if neg3 > pos3 then (pos3, neg3 * (1 + (exclam : ℚ) * 0.1))
    else (pos3, neg3)
  else (pos3, neg3)

/-- Lines 142–162 of `calculate_sentiment_score`: normalize the final score
pair into `(score, label, confidence)`. -/
def labelOf (scores : ℚ × ℚ) : ℚ × String × ℚ :=
  let total := scores.1 + scores.2
  if total = 0 then (0, "Nötr", 0.5)
  else
    let score := (scores.1 - scores.2) / (scores.1 + scores.2)
    let label :=
      if score > 0.2 then "Pozitif"
      else if score < -0.2 then "Negatif"
      else "Nötr"
    (score, label, min (|score| + 0.3) 1)

/-- The final `(pos_score, neg_score)` pair of `calculate_sentiment_score`
for a given text, with the emoji/exclamation counts taken from
`extract_features` as in the source. -/
def scorePair (nlp : Option (String → SpacyFeatures)) (text : String) :
    ℚ × ℚ :=
  finalScores (tokenize text)
    (extract_features nlp text).positive_emoji_count
    (extract_features nlp text).negative_emoji_count
    (extract_features nlp text).exclamation_count

/-- The method `TurkishSentimentAnalyzer.calculate_sentiment_score`:
returns `(score, label, confidence)`. -/
def calculate_sentiment_score (nlp : Option (String → SpacyFeatures))
    (text : String) : ℚ × String × ℚ :=
  labelOf (scorePair nlp text)

/-- A Python dict value appearing in the result of `analyze`: a float
(modelled as `ℚ`) or a string. -/
inductive PyVal where
  | num (q : ℚ)
  | str (s : String)
deriving DecidableEq

/-- Python's `round(x, 3)`. -/
def round3 (q : ℚ) : ℚ := ((round (q * 1000) : ℤ) : ℚ) / 1000

/-- The method `TurkishSentimentAnalyzer.analyze`: the returned dict, as an association
list in the literal key order of the source. -/
def analyze (nlp : Option (String → SpacyFeatures)) (text : String) :
    List (String × PyVal) :=
  if text = "" ∨ strippedEmpty text then
    [("score", .num 0), ("label", .str "Nötr"), ("confidence", .num 0),
     ("polarity", .num 0), ("subjectivity", .num 0.5)]
  else
    let r := calculate_sentiment_score nlp text
    [("score", .num (round3 r.1)), ("label", .str r.2.1),
     ("confidence", .num (round3 r.2.2)),
     ("polarity", .num (round3 r.1)),
     ("subjectivity", .num (round3 r.2.2)),
     ("model", .str "Turkish Lexicon + Features")]

/-- Modelled from the spec (§4.3 step 2, as amended): the total intensifier
credit added to `posScore` — one summand `0.5 * m` for every token that is an
intensifier with multiplier `m` whose immediately following token is a
positive lexicon word. -/
def intensPosSpec : List String → ℚ
  | [] => 0
  | [_] => 0
  | w :: next :: rest =>
    (match List.lookup w intensifiers with
     | some m => if positive_words.contains next then 0.5 * m else 0
     | none => 0) + intensPosSpec (next :: rest)

/-- Modelled from the spec (§4.3 step 2, as amended): the total intensifier
credit added to `negScore` — one summand `0.5 * m` for every token that is an
intensifier with multiplier `m` whose immediately following token is a
negative lexicon word *that is not also a positive word* (the source tests
positive membership first and only `elif` negative). -/
def intensNegSpec : List String → ℚ
  | [] => 0
  | [_] => 0
  | w :: next :: rest =>
    (match List.lookup w intensifiers with
     | some m =>
       if positive_words.contains next then 0
       else if negative_words.contains next then 0.5 * m else 0
     | none => 0) + intensNegSpec (next :: rest)

end TurkishSentiment

namespace TurkishSentiment

/-! ## Helper lemmas -/

theorem lookup_mem_map_snd {α β : Type} [BEq α] :
    ∀ (l : List (α × β)) (a : α) (b : β),
      List.lookup a l = some b → b ∈ l.map Prod.snd := by
  intro l
  induction l with
  | nil => intro a b h; simp [List.lookup] at h
  | cons hd tl ih =>
    intro a b h
    obtain ⟨k, v⟩ := hd
    rw [List.lookup_cons] at h
    cases hab : a == k with
    | true =>
      rw [hab] at h
      simp only [Option.some.injEq] at h
      simp [h]
    | false =>
      rw [hab] at h
      exact List.mem_cons_of_mem _ (ih a b h)

theorem intensifier_multiplier_nonneg (w : String) (m : ℚ)
    (h : List.lookup w intensifiers = some m) : 0 ≤ m := by
  have hm := lookup_mem_map_snd intensifiers w m h
  simp only [intensifiers, List.map, List.mem_cons, List.not_mem_nil,
    or_false] at hm
  rcases hm with rfl | rfl | rfl | rfl | rfl | rfl | rfl | rfl | rfl | rfl |
    rfl | rfl | rfl | rfl <;> norm_num

/-! Case equations for `applyIntensifiers` and the two spec-side sums,
resolving the inner `Option` match once and for all. -/

theorem applyIntensifiers_cons_none {w next : String} {rest : List String}
    {p n : ℚ} (hl : List.lookup w intensifiers = none) :
    applyIntensifiers (w :: next :: rest) (p, n) =
      applyIntensifiers (next :: rest) (p, n) := by
  simp only [applyIntensifiers, hl]

theorem applyIntensifiers_cons_pos {w next : String} {rest : List String}
    {p n m : ℚ} (hl : List.lookup w intensifiers = some m)
    (hp : positive_words.contains next = true) :
    applyIntensifiers (w :: next :: rest) (p, n) =
      applyIntensifiers (next :: rest) (p + 0.5 * m, n) := by
  simp only [applyIntensifiers, hl, hp, if_true]

theorem applyIntensifiers_cons_neg {w next : String} {rest : List String}
    {p n m : ℚ} (hl : List.lookup w intensifiers = some m)
    (hp : positive_words.contains next = false)
    (hn : negative_words.contains next = true) :
    applyIntensifiers (w :: next :: rest) (p, n) =
      applyIntensifiers (next :: rest) (p, n + 0.5 * m) := by
  simp only [applyIntensifiers, hl, hp, hn, if_true, Bool.false_eq_true,
    if_false]

theorem applyIntensifiers_cons_other {w next : String} {rest : List String}
    {p n m : ℚ} (hl : List.lookup w intensifiers = some m)
    (hp : positive_words.contains next = false)
    (hn : negative_words.contains next = false) :
    applyIntensifiers (w :: next :: rest) (p, n) =
      applyIntensifiers (next :: rest) (p, n) := by
  simp only [applyIntensifiers, hl, hp, hn, Bool.false_eq_true, if_false]

theorem intensPosSpec_cons_none {w next : String} {rest : List String}
    (hl : List.lookup w intensifiers = none) :
    intensPosSpec (w :: next :: rest) = intensPosSpec (next :: rest) := by
  simp only [intensPosSpec, hl, zero_add]

theorem intensPosSpec_cons_some {w next : String} {rest : List String}
    {m : ℚ} (hl : List.lookup w intensifiers = some m) :
    intensPosSpec (w :: next :: rest) =
      (if positive_words.contains next then 0.5 * m else 0) +
        intensPosSpec (next :: rest) := by
  simp only [intensPosSpec, hl]

theorem intensNegSpec_cons_none {w next : String} {rest : List String}
    (hl : List.lookup w intensifiers = none) :
    intensNegSpec (w :: next :: rest) = intensNegSpec (next :: rest) := by
  simp only [intensNegSpec, hl, zero_add]

theorem intensNegSpec_cons_some {w next : String} {rest : List String}
    {m : ℚ} (hl : List.lookup w intensifiers = some m) :
    intensNegSpec (w :: next :: rest) =
      (if positive_words.contains next then 0
       else if negative_words.contains next then 0.5 * m else 0) +
        intensNegSpec (next :: rest) := by
  simp only [intensNegSpec, hl]

theorem intensPosSpec_nonneg : ∀ ws : List String, 0 ≤ intensPosSpec ws := by
  intro ws
  induction ws with
  | nil => simp [intensPosSpec]
  | cons w rest ih =>
    cases rest with
    | nil => simp [intensPosSpec]
    | cons next rest' =>
      cases hl : List.lookup w intensifiers with
      | none => rw [intensPosSpec_cons_none hl]; exact ih
      | some m =>
        rw [intensPosSpec_cons_some hl]
        refine add_nonneg ?_ ih
        have hmn := intensifier_multiplier_nonneg w m hl
        split
        · exact mul_nonneg (by norm_num) hmn
        · exact le_refl 0

theorem intensNegSpec_nonneg : ∀ ws : List String, 0 ≤ intensNegSpec ws := by
  intro ws
  induction ws with
  | nil => simp [intensNegSpec]
  | cons w rest ih =>
    cases rest with
    | nil => simp [intensNegSpec]
    | cons next rest' =>
      cases hl : List.lookup w intensifiers with
      | none => rw [intensNegSpec_cons_none hl]; exact ih
      | some m =>
        rw [intensNegSpec_cons_some hl]
        refine add_nonneg ?_ ih
        have hmn := intensifier_multiplier_nonneg w m hl
        split
        · exact le_refl 0
        · split
          · exact mul_nonneg (by norm_num) hmn
          · exact le_refl 0

/-- The intensifier loop decomposes as independent additive contributions:
refinement of the source loop against the spec-style sums. -/
theorem applyIntensifiers_eq :
    ∀ (ws : List String) (p n : ℚ),
      applyIntensifiers ws (p, n) =
        (p + intensPosSpec ws, n + intensNegSpec ws) := by
  intro ws
  induction ws with
  | nil => intro p n; simp [applyIntensifiers, intensPosSpec, intensNegSpec]
  | cons w rest ih =>
    cases rest with
    | nil =>
      intro p n
      simp [applyIntensifiers, intensPosSpec, intensNegSpec]
    | cons next rest' =>
      intro p n
      cases hl : List.lookup w intensifiers with
      | none =>
        rw [applyIntensifiers_cons_none hl, intensPosSpec_cons_none hl,
          intensNegSpec_cons_none hl, ih]
      | some m =>
        rw [intensPosSpec_cons_some hl, intensNegSpec_cons_some hl]
        cases hp : positive_words.contains next with
        | true =>
          rw [applyIntensifiers_cons_pos hl hp, ih]
          simp only [Prod.mk.injEq, eq_self_iff_true, if_true]
          constructor <;> ring
        | false =>
          cases hn : negative_words.contains next with
          | true =>
            rw [applyIntensifiers_cons_neg hl hp hn, ih]
            simp only [Prod.mk.injEq, eq_self_iff_true, if_true,
              Bool.false_eq_true, if_false]
            constructor <;> ring
          | false =>
            rw [applyIntensifiers_cons_other hl hp hn, ih]
            simp

theorem contains_iff_mem {x : String} {l : List String} :
    l.contains x = true ↔ x ∈ l := by
  simp [List.contains, List.elem_iff]

theorem eq_false_imp_ne_true {b : Bool} (h : b = false) : ¬b = true := by
  simp [h]

theorem negation_not_positive :
    ∀ x ∈ negations, positive_words.contains x = false := by decide

theorem negation_not_negative :
    ∀ x ∈ negations, negative_words.contains x = false := by decide

theorem negation_not_intensifier :
    ∀ x ∈ negations, List.lookup x intensifiers = none := by decide

theorem applyNegation_nonneg :
    ∀ (ws : List String) (p n : ℚ), 0 ≤ p → 0 ≤ n →
      0 ≤ (applyNegation ws (p, n)).1 ∧ 0 ≤ (applyNegation ws (p, n)).2 := by
  intro ws
  induction ws with
  | nil => intro p n hp hn; exact ⟨hp, hn⟩
  | cons w rest ih =>
    intro p n hp hn
    simp only [applyNegation]
    split
    · exact ⟨mul_nonneg hn (by norm_num), mul_nonneg hp (by norm_num)⟩
    · exact ih p n hp hn

/-- The negation loop fires exactly on the first negation marker: scores are
swapped with factor `0.7` and every later token, negation marker or not, is
ignored. -/
theorem applyNegation_first :
    ∀ (pre : List String) (w : String) (post : List String) (p n : ℚ),
      (∀ x ∈ pre, negations.contains x = false) →
      negations.contains w = true →
      applyNegation (pre ++ w :: post) (p, n) = (n * 0.7, p * 0.7) := by
  intro pre
  induction pre with
  | nil =>
    intro w post p n _ hw
    simp only [List.nil_append, applyNegation, hw, eq_self_iff_true, if_true]
  | cons a pre' ih =>
    intro w post p n hpre hw
    have ha : negations.contains a = false := hpre a (List.mem_cons_self a pre')
    simp only [List.cons_append, applyNegation, ha, Bool.false_eq_true,
      if_false]
    exact ih w post p n (fun x hx => hpre x (List.mem_cons_of_mem a hx)) hw

theorem applyNegation_append :
    ∀ (a : List String) (b : List String) (s : ℚ × ℚ),
      (∃ x ∈ a, negations.contains x = true) →
      applyNegation (a ++ b) s = applyNegation a s := by
  intro a
  induction a with
  | nil =>
    intro b s h
    rcases h with ⟨x, hx, _⟩
    simp at hx
  | cons w a' ih =>
    intro b s h
    obtain ⟨p, n⟩ := s
    cases hw : negations.contains w with
    | true =>
      simp only [List.cons_append, applyNegation, hw, eq_self_iff_true,
        if_true]
    | false =>
      simp only [List.cons_append, applyNegation, hw, Bool.false_eq_true,
        if_false]
      apply ih
      rcases h with ⟨x, hx, hxn⟩
      rcases List.mem_cons.mp hx with rfl | hx'
      · rw [hw] at hxn; cases hxn
      · exact ⟨x, hx', hxn⟩

theorem countP_append_right_zero (p : String → Bool) (a b : List String)
    (hb : ∀ x ∈ b, p x = false) : (a ++ b).countP p = a.countP p := by
  rw [List.countP_append]
  have hz : b.countP p = 0 := by
    rw [List.countP_eq_zero]
    intro x hx
    simp [hb x hx]
  simp [hz]

theorem intensSpec_eq_zero :
    ∀ b : List String, (∀ x ∈ b, List.lookup x intensifiers = none) →
      intensPosSpec b = 0 ∧ intensNegSpec b = 0 := by
  intro b
  induction b with
  | nil => intro _; simp [intensPosSpec, intensNegSpec]
  | cons w rest ih =>
    intro hb
    cases rest with
    | nil => simp [intensPosSpec, intensNegSpec]
    | cons next rest' =>
      have hw := hb w (List.mem_cons_self w _)
      rw [intensPosSpec_cons_none hw, intensNegSpec_cons_none hw]
      exact ih (fun x hx => hb x (List.mem_cons_of_mem w hx))

theorem intensSpec_append :
    ∀ (a b : List String),
      (∀ x ∈ b, positive_words.contains x = false ∧
        negative_words.contains x = false ∧
        List.lookup x intensifiers = none) →
      intensPosSpec (a ++ b) = intensPosSpec a ∧
        intensNegSpec (a ++ b) = intensNegSpec a := by
  intro a
  induction a with
  | nil =>
    intro b hb
    simpa [intensPosSpec, intensNegSpec] using
      intensSpec_eq_zero b (fun x hx => (hb x hx).2.2)
  | cons w a' ih =>
    intro b hb
    cases a' with
    | nil =>
      cases b with
      | nil => exact ⟨rfl, rfl⟩
      | cons z b' =>
        obtain ⟨hzp, hzn, _⟩ := hb z (List.mem_cons_self z b')
        have hz : intensPosSpec (z :: b') = 0 ∧ intensNegSpec (z :: b') = 0 :=
          intensSpec_eq_zero (z :: b')
            (fun x hx => (hb x hx).2.2)
        cases hl : List.lookup w intensifiers with
        | none =>
          simp only [List.cons_append, List.nil_append]
          rw [intensPosSpec_cons_none hl, intensNegSpec_cons_none hl]
          simpa [intensPosSpec, intensNegSpec] using hz
        | some m =>
          simp only [List.cons_append, List.nil_append]
          rw [intensPosSpec_cons_some hl, intensNegSpec_cons_some hl,
            if_neg (eq_false_imp_ne_true hzp), if_neg (eq_false_imp_ne_true hzp),
            if_neg (eq_false_imp_ne_true hzn)]
          simp [intensPosSpec, intensNegSpec, hz.1, hz.2]
    | cons y a'' =>
      have hih := ih b hb
      cases hl : List.lookup w intensifiers with
      | none =>
        rw [List.cons_append, List.cons_append,
          intensPosSpec_cons_none hl, intensNegSpec_cons_none hl,
          intensPosSpec_cons_none hl, intensNegSpec_cons_none hl]
        simpa using hih
      | some m =>
        rw [List.cons_append, List.cons_append,
          intensPosSpec_cons_some hl, intensNegSpec_cons_some hl,
          intensPosSpec_cons_some hl, intensNegSpec_cons_some hl]
        rw [List.cons_append] at hih
        rw [hih.1, hih.2]
        exact ⟨rfl, rfl⟩

/-- Appending extra tokens that are lexicon-inert (not positive, not
negative, not intensifiers) to a token sequence that already contains a
negation marker leaves the final score pair unchanged. -/
theorem finalScores_append_negations (ws extra : List String)
    (pe ne ex : Nat)
    (hws : ∃ x ∈ ws, negations.contains x = true)
    (hextra : ∀ x ∈ extra, negations.contains x = true) :
    finalScores (ws ++ extra) pe ne ex = finalScores ws pe ne ex := by
  have hb : ∀ x ∈ extra, positive_words.contains x = false ∧
      negative_words.contains x = false ∧
      List.lookup x intensifiers = none := by
    intro x hx
    have hxm : x ∈ negations := contains_iff_mem.mp (hextra x hx)
    exact ⟨negation_not_positive x hxm, negation_not_negative x hxm,
      negation_not_intensifier x hxm⟩
  have hcp : (ws ++ extra).countP (fun w => positive_words.contains w) =
      ws.countP (fun w => positive_words.contains w) :=
    countP_append_right_zero _ ws extra (fun x hx => (hb x hx).1)
  have hcn : (ws ++ extra).countP (fun w => negative_words.contains w) =
      ws.countP (fun w => negative_words.contains w) :=
    countP_append_right_zero _ ws extra (fun x hx => (hb x hx).2.1)
  obtain ⟨hpa, hna⟩ := intensSpec_append ws extra hb
  simp only [finalScores, hcp, hcn]
  rw [applyIntensifiers_eq, applyIntensifiers_eq, hpa, hna,
    applyNegation_append ws extra _ hws]

theorem labelOf_zero (s : ℚ × ℚ) (h : s.1 + s.2 = 0) :
    labelOf s = (0, "Nötr", 0.5) := by
  simp only [labelOf]
  rw [if_pos h]

theorem labelOf_ne (s : ℚ × ℚ) (h : s.1 + s.2 ≠ 0) :
    labelOf s = ((s.1 - s.2) / (s.1 + s.2),
      (if (s.1 - s.2) / (s.1 + s.2) > 0.2 then "Pozitif"
       else if (s.1 - s.2) / (s.1 + s.2) < -0.2 then "Negatif" else "Nötr"),
      min (|(s.1 - s.2) / (s.1 + s.2)| + 0.3) 1) := by
  simp only [labelOf]
  rw [if_neg h]

theorem finalScores_nonneg (ws : List String) (pe ne ex : Nat) :
    0 ≤ (finalScores ws pe ne ex).1 ∧ 0 ≤ (finalScores ws pe ne ex).2 := by
  simp only [finalScores]
  rw [applyIntensifiers_eq]
  have h1 : 0 ≤ ((ws.countP fun w => positive_words.contains w : Nat) : ℚ) +
      intensPosSpec ws :=
    add_nonneg (Nat.cast_nonneg _) (intensPosSpec_nonneg ws)
  have h2 : 0 ≤ ((ws.countP fun w => negative_words.contains w : Nat) : ℚ) +
      intensNegSpec ws :=
    add_nonneg (Nat.cast_nonneg _) (intensNegSpec_nonneg ws)
  obtain ⟨hn1, hn2⟩ := applyNegation_nonneg ws _ _ h1 h2
  have h3 : 0 ≤ (applyNegation ws
      (((ws.countP fun w => positive_words.contains w : Nat) : ℚ) +
        intensPosSpec ws,
       ((ws.countP fun w => negative_words.contains w : Nat) : ℚ) +
        intensNegSpec ws)).1 + (pe : ℚ) * 0.5 :=
    add_nonneg hn1 (by positivity)
  have h4 : 0 ≤ (applyNegation ws
      (((ws.countP fun w => positive_words.contains w : Nat) : ℚ) +
        intensPosSpec ws,
       ((ws.countP fun w => negative_words.contains w : Nat) : ℚ) +
        intensNegSpec ws)).2 + (ne : ℚ) * 0.5 :=
    add_nonneg hn2 (by positivity)
  have hfac : (0 : ℚ) ≤ 1 + (ex : ℚ) * 0.1 := by positivity
  split_ifs with hex hc1 hc2
  · exact ⟨mul_nonneg h3 hfac, h4⟩
  · exact ⟨h3, mul_nonneg h4 hfac⟩
  · exact ⟨h3, h4⟩
  · exact ⟨h3, h4⟩

theorem scorePair_nonneg (nlp : Option (String → SpacyFeatures))
    (text : String) :
    0 ≤ (scorePair nlp text).1 ∧ 0 ≤ (scorePair nlp text).2 :=
  finalScores_nonneg (tokenize text)
    (extract_features nlp text).positive_emoji_count
    (extract_features nlp text).negative_emoji_count
    (extract_features nlp text).exclamation_count

theorem round3_zero : round3 0 = 0 := by
  simp [round3]

theorem round3_half : round3 (1 / 2) = 1 / 2 := by
  rw [round3]
  have h : round ((1 / 2 : ℚ) * 1000) = 500 := by rw [round_eq]; norm_num
  rw [h]
  norm_num

theorem round3_one : round3 1 = 1 := by
  rw [round3]
  have h : round ((1 : ℚ) * 1000) = 1000 := by rw [round_eq]; norm_num
  rw [h]
  norm_num

theorem labelOf_spec (s : ℚ × ℚ) (h : s.1 + s.2 ≠ 0) :
    ((labelOf s).2.1 = "Pozitif" ↔ 0.2 < (labelOf s).1) ∧
    ((labelOf s).2.1 = "Negatif" ↔ (labelOf s).1 < -0.2) ∧
    ((labelOf s).2.1 = "Nötr" ↔
      (-0.2 ≤ (labelOf s).1 ∧ (labelOf s).1 ≤ 0.2)) ∧
    (labelOf s).2.2 = min (|(labelOf s).1| + 0.3) 1 := by
  rw [labelOf_ne s h]
  dsimp only
  split_ifs with h1 h2
  · exact ⟨iff_of_true rfl h1,
      iff_of_false (by decide) (by intro h3; linarith),
      iff_of_false (by decide) (by rintro ⟨h3, h4⟩; linarith), rfl⟩
  · exact ⟨iff_of_false (by decide) (by intro h3; linarith),
      iff_of_true rfl h2,
      iff_of_false (by decide) (by rintro ⟨h3, h4⟩; linarith), rfl⟩
  · exact ⟨iff_of_false (by decide) h1,
      iff_of_false (by decide) h2,
      iff_of_true rfl ⟨le_of_not_lt h2, le_of_not_lt h1⟩, rfl⟩

/-! ## Evaluations of the pipeline on concrete texts -/

theorem analyze_empty (nlp : Option (String → SpacyFeatures)) (text : String)
    (hg : text = "" ∨ strippedEmpty text) :
    analyze nlp text =
      [("score", PyVal.num 0), ("label", PyVal.str "Nötr"),
       ("confidence", PyVal.num 0), ("polarity", PyVal.num 0),
       ("subjectivity", PyVal.num 0.5)] := by
  rw [analyze, if_pos hg]

theorem analyze_nonempty (nlp : Option (String → SpacyFeatures))
    (text : String) (hg : ¬(text = "" ∨ strippedEmpty text)) :
    analyze nlp text =
      [("score", PyVal.num (round3 (calculate_sentiment_score nlp text).1)),
       ("label", PyVal.str (calculate_sentiment_score nlp text).2.1),
       ("confidence",
        PyVal.num (round3 (calculate_sentiment_score nlp text).2.2)),
       ("polarity", PyVal.num (round3 (calculate_sentiment_score nlp text).1)),
       ("subjectivity",
        PyVal.num (round3 (calculate_sentiment_score nlp text).2.2)),
       ("model", PyVal.str "Turkish Lexicon + Features")] := by
  rw [analyze, if_neg hg]

theorem scorePair_berbat :
    scorePair none "Berbat, hiç beğenmedim" = (0.7, 0) := by
  have hT : tokenize "Berbat, hiç beğenmedim" =
      ["berbat,", "hiç", "beğenmedim"] := by decide
  have hpe : (extract_features none
      "Berbat, hiç beğenmedim").positive_emoji_count = 0 := by decide
  have hne : (extract_features none
      "Berbat, hiç beğenmedim").negative_emoji_count = 0 := by decide
  have hex : (extract_features none
      "Berbat, hiç beğenmedim").exclamation_count = 0 := by decide
  rw [scorePair, hT, hpe, hne, hex]
  simp +decide only [finalScores, applyIntensifiers, applyNegation,
    List.countP_cons, List.countP_nil, List.lookup]
  norm_num

theorem calc_berbat :
    calculate_sentiment_score none "Berbat, hiç beğenmedim" =
      (1, "Pozitif", 1) := by
  rw [calculate_sentiment_score, scorePair_berbat,
    labelOf_ne (0.7, 0) (by norm_num)]
  norm_num

theorem analyze_berbat :
    analyze none "Berbat, hiç beğenmedim" =
      [("score", PyVal.num 1), ("label", PyVal.str "Pozitif"),
       ("confidence", PyVal.num 1), ("polarity", PyVal.num 1),
       ("subjectivity", PyVal.num 1),
       ("model", PyVal.str "Turkish Lexicon + Features")] := by
  rw [analyze_nonempty none "Berbat, hiç beğenmedim" (by decide), calc_berbat]
  norm_num [round3_one]

theorem scorePair_hic1 :
    scorePair none "hiç güzel çok kötü" = (1.225, 0.7) := by
  have hT : tokenize "hiç güzel çok kötü" =
      ["hiç", "güzel", "çok", "kötü"] := by decide
  have hpe : (extract_features none
      "hiç güzel çok kötü").positive_emoji_count = 0 := by decide
  have hne : (extract_features none
      "hiç güzel çok kötü").negative_emoji_count = 0 := by decide
  have hex : (extract_features none
      "hiç güzel çok kötü").exclamation_count = 0 := by decide
  rw [scorePair, hT, hpe, hne, hex]
  simp +decide only [finalScores, applyIntensifiers, applyNegation,
    List.countP_cons, List.countP_nil, List.lookup]
  norm_num

theorem scorePair_hic2 :
    scorePair none "hiç güzel çok yok kötü" = (0.7, 0.7) := by
  have hT : tokenize "hiç güzel çok yok kötü" =
      ["hiç", "güzel", "çok", "yok", "kötü"] := by decide
  have hpe : (extract_features none
      "hiç güzel çok yok kötü").positive_emoji_count = 0 := by decide
  have hne : (extract_features none
      "hiç güzel çok yok kötü").negative_emoji_count = 0 := by decide
  have hex : (extract_features none
      "hiç güzel çok yok kötü").exclamation_count = 0 := by decide
  rw [scorePair, hT, hpe, hne, hex]
  simp +decide only [finalScores, applyIntensifiers, applyNegation,
    List.countP_cons, List.countP_nil, List.lookup]
  norm_num

theorem calc_hic1 :
    calculate_sentiment_score none "hiç güzel çok kötü" =
      (3 / 11, "Pozitif", 63 / 110) := by
  rw [calculate_sentiment_score, scorePair_hic1,
    labelOf_ne (1.225, 0.7) (by norm_num)]
  norm_num
  rw [show |(3 : ℚ) / 11| = 3 / 11 from abs_of_nonneg (by norm_num)]
  norm_num [min_def]

theorem calc_hic2 :
    calculate_sentiment_score none "hiç güzel çok yok kötü" =
      (0, "Nötr", 0.3) := by
  rw [calculate_sentiment_score, scorePair_hic2,
    labelOf_ne (0.7, 0.7) (by norm_num)]
  norm_num

theorem scorePair_merhaba : scorePair none "merhaba" = (0, 0) := by
  have hT : tokenize "merhaba" = ["merhaba"] := by decide
  have hpe : (extract_features none "merhaba").positive_emoji_count = 0 := by
    decide
  have hne : (extract_features none "merhaba").negative_emoji_count = 0 := by
    decide
  have hex : (extract_features none "merhaba").exclamation_count = 0 := by
    decide
  rw [scorePair, hT, hpe, hne, hex]
  simp +decide only [finalScores, applyIntensifiers, applyNegation,
    List.countP_cons, List.countP_nil, List.lookup]
  norm_num

theorem scorePair_guzel : scorePair none "güzel" = (1, 0) := by
  have hT : tokenize "güzel" = ["güzel"] := by decide
  have hpe : (extract_features none "güzel").positive_emoji_count = 0 := by
    decide
  have hne : (extract_features none "güzel").negative_emoji_count = 0 := by
    decide
  have hex : (extract_features none "güzel").exclamation_count = 0 := by
    decide
  rw [scorePair, hT, hpe, hne, hex]
  simp +decide only [finalScores, applyIntensifiers, applyNegation,
    List.countP_cons, List.countP_nil, List.lookup]
  norm_num

/-! ## Claim theorems -/

/-- C1 (amended): `polarity` always equals `score` in the record returned by
`analyze`; `subjectivity` equals `confidence` on the non-empty path, but on
the empty/whitespace-only path the record has `subjectivity = 0.5` while
`confidence = 0.0`, so the alias fails there. -/
theorem C1_polarity_subjectivity_alias
    (nlp : Option (String → SpacyFeatures)) (text : String) :
    List.lookup "polarity" (analyze nlp text) =
      List.lookup "score" (analyze nlp text) ∧
    (¬(text = "" ∨ strippedEmpty text) →
      List.lookup "subjectivity" (analyze nlp text) =
        List.lookup "confidence" (analyze nlp text)) ∧
    ((text = "" ∨ strippedEmpty text) →
      List.lookup "subjectivity" (analyze nlp text) = some (PyVal.num 0.5) ∧
      List.lookup "confidence" (analyze nlp text) = some (PyVal.num 0)) := by
  refine ⟨?_, ?_, ?_⟩
  · by_cases hg : text = "" ∨ strippedEmpty text
    · rw [analyze_empty nlp text hg]
      simp [List.lookup]
    · rw [analyze_nonempty nlp text hg]
      simp [List.lookup]
  · intro hg
    rw [analyze_nonempty nlp text hg]
    simp [List.lookup]
  · intro hg
    rw [analyze_empty nlp text hg]
    simp [List.lookup]

/-- C1 witness: the amended alias equalities evaluated at the concrete
inputs `"güzel"` (non-empty path) and `""` (empty path). -/
theorem C1_polarity_subjectivity_alias_witness :
    ¬("güzel" = "" ∨ strippedEmpty "güzel") ∧
    (List.lookup "subjectivity" (analyze none "güzel") =
      List.lookup "confidence" (analyze none "güzel")) ∧
    List.lookup "polarity" (analyze none "") =
      List.lookup "score" (analyze none "") :=
  ⟨by decide,
   (C1_polarity_subjectivity_alias none "güzel").2.1 (by decide),
   (C1_polarity_subjectivity_alias none "").1⟩

/-- C1 counterexample: on the empty-string input the returned record has
`subjectivity = 0.5` but `confidence = 0.0`, so `subjectivity` is *not*
equal to `confidence` on the empty/whitespace-only short-circuit path,
refuting the claim as stated. -/
theorem C1_counterexample :
    List.lookup "subjectivity" (analyze none "") = some (PyVal.num 0.5) ∧
    List.lookup "confidence" (analyze none "") = some (PyVal.num 0) ∧
    (0.5 : ℚ) ≠ 0 := by
  refine ⟨?_, ?_, by norm_num⟩ <;>
    rw [analyze_empty none "" (Or.inl rfl)] <;> simp [List.lookup]

/-- C2 (amended): on the exact text `"Berbat, hiç beğenmedim"` the analyzer
returns label `"Pozitif"` with score `1.0` (not Negative/Neutral with
`score ≤ 0`): the token `"berbat,"` keeps its trailing comma and misses the
lexicon, so only `"beğenmedim"` scores (`negScore = 1`); the negation
`"hiç"` then swaps via `posScore, negScore = negScore*0.7, posScore*0.7`,
giving `posScore = 0.7`, `negScore = 0` and `rawScore = 1.0` — exactly the
value the §4.3 step 3 formula produces. -/
theorem C2_berbat_swap_evaluation :
    analyze none "Berbat, hiç beğenmedim" =
      [("score", PyVal.num 1), ("label", PyVal.str "Pozitif"),
       ("confidence", PyVal.num 1), ("polarity", PyVal.num 1),
       ("subjectivity", PyVal.num 1),
       ("model", PyVal.str "Turkish Lexicon + Features")] :=
  analyze_berbat

/-- C2 counterexample: the claim predicts label Negative or Neutral and
`score ≤ 0` for this exact input, but the code returns label `"Pozitif"`
and score `1`, and `1 ≤ 0` is false. -/
theorem C2_counterexample :
    List.lookup "label" (analyze none "Berbat, hiç beğenmedim") =
      some (PyVal.str "Pozitif") ∧
    List.lookup "score" (analyze none "Berbat, hiç beğenmedim") =
      some (PyVal.num 1) ∧
    ¬((1 : ℚ) ≤ 0) := by
  refine ⟨?_, ?_, by norm_num⟩ <;>
    rw [analyze_berbat] <;> simp [List.lookup]

/-- C3 (amended): the positive and negative lexicon tables are disjoint
except for the single word `"hayal"`, which appears in both (in
`negative_words` it stems from splitting the phrase “hayal kırıklığı”). -/
theorem C3_lexicon_overlap_only_hayal :
    positive_words.filter (fun w => negative_words.contains w) = ["hayal"] ∧
    negative_words.filter (fun w => positive_words.contains w) = ["hayal"] := by
  decide

/-- C3 counterexample: `"hayal"` is a member of both lexicon tables, so
they are not disjoint. -/
theorem C3_counterexample :
    positive_words.contains "hayal" = true ∧
    negative_words.contains "hayal" = true := by
  decide

theorem calc_bounds
    (nlp : Option (String → SpacyFeatures)) (text : String) :
    -1 ≤ (calculate_sentiment_score nlp text).1 ∧
    (calculate_sentiment_score nlp text).1 ≤ 1 ∧
    0 ≤ (calculate_sentiment_score nlp text).2.2 ∧
    (calculate_sentiment_score nlp text).2.2 ≤ 1 := by
  obtain ⟨h1, h2⟩ := scorePair_nonneg nlp text
  have hc : calculate_sentiment_score nlp text =
      labelOf (scorePair nlp text) := rfl
  by_cases h : (scorePair nlp text).1 + (scorePair nlp text).2 = 0
  · rw [hc, labelOf_zero _ h]
    norm_num
  · rw [hc, labelOf_ne _ h]
    have hlt : 0 < (scorePair nlp text).1 + (scorePair nlp text).2 :=
      lt_of_le_of_ne (add_nonneg h1 h2) (Ne.symm h)
    refine ⟨?_, ?_, ?_, ?_⟩
    · show -1 ≤ ((scorePair nlp text).1 - (scorePair nlp text).2) /
        ((scorePair nlp text).1 + (scorePair nlp text).2)
      rw [le_div_iff₀ hlt]
      linarith
    · show ((scorePair nlp text).1 - (scorePair nlp text).2) /
        ((scorePair nlp text).1 + (scorePair nlp text).2) ≤ 1
      rw [div_le_one hlt]
      linarith
    · show 0 ≤ min (|((scorePair nlp text).1 - (scorePair nlp text).2) /
        ((scorePair nlp text).1 + (scorePair nlp text).2)| + 0.3) 1
      exact le_min (by positivity) (by norm_num)
    · show min (|((scorePair nlp text).1 - (scorePair nlp text).2) /
        ((scorePair nlp text).1 + (scorePair nlp text).2)| + 0.3) 1 ≤ 1
      exact min_le_right _ _

theorem round3_bounds (q : ℚ) (h1 : -1 ≤ q) (h2 : q ≤ 1) :
    -1 ≤ round3 q ∧ round3 q ≤ 1 := by
  have hlo : (-1000 : ℤ) ≤ round (q * 1000) := by
    rw [round_eq]
    have hle : ((-1000 : ℤ) : ℚ) ≤ q * 1000 + 1 / 2 := by push_cast; linarith
    calc (-1000 : ℤ) = ⌊((-1000 : ℤ) : ℚ)⌋ := (Int.floor_intCast _).symm
      _ ≤ ⌊q * 1000 + 1 / 2⌋ := Int.floor_mono hle
  have hhi : round (q * 1000) ≤ 1000 := by
    rw [round_eq]
    have hlt : q * 1000 + 1 / 2 < ((1001 : ℤ) : ℚ) := by push_cast; linarith
    have := Int.floor_lt.mpr hlt
    omega
  constructor
  · rw [round3, le_div_iff₀ (by norm_num : (0 : ℚ) < 1000)]
    calc (-1 : ℚ) * 1000 = ((-1000 : ℤ) : ℚ) := by norm_num
      _ ≤ ((round (q * 1000) : ℤ) : ℚ) := by exact_mod_cast hlo
  · rw [round3, div_le_one (by norm_num : (0 : ℚ) < 1000)]
    have hc : ((round (q * 1000) : ℤ) : ℚ) ≤ ((1000 : ℤ) : ℚ) := by
      exact_mod_cast hhi
    calc ((round (q * 1000) : ℤ) : ℚ) ≤ ((1000 : ℤ) : ℚ) := hc
      _ = 1000 := by norm_num

theorem round3_bounds01 (q : ℚ) (h1 : 0 ≤ q) (h2 : q ≤ 1) :
    0 ≤ round3 q ∧ round3 q ≤ 1 := by
  have hlo : (0 : ℤ) ≤ round (q * 1000) := by
    rw [round_eq]
    have hle : ((0 : ℤ) : ℚ) ≤ q * 1000 + 1 / 2 := by push_cast; linarith
    calc (0 : ℤ) = ⌊((0 : ℤ) : ℚ)⌋ := (Int.floor_intCast _).symm
      _ ≤ ⌊q * 1000 + 1 / 2⌋ := Int.floor_mono hle
  have hhi : round (q * 1000) ≤ 1000 := by
    rw [round_eq]
    have hlt : q * 1000 + 1 / 2 < ((1001 : ℤ) : ℚ) := by push_cast; linarith
    have := Int.floor_lt.mpr hlt
    omega
  constructor
  · rw [round3]
    positivity
  · rw [round3, div_le_one (by norm_num : (0 : ℚ) < 1000)]
    have hc : ((round (q * 1000) : ℤ) : ℚ) ≤ ((1000 : ℤ) : ℚ) := by
      exact_mod_cast hhi
    calc ((round (q * 1000) : ℤ) : ℚ) ≤ ((1000 : ℤ) : ℚ) := hc
      _ = 1000 := by norm_num

/-- C4: for every input text (and any annotator), the score produced by
`calculate_sentiment_score` lies in `[-1, 1]` and the confidence in
`[0, 1]`, and the (rounded) `score` and `confidence` entries of the record
returned by `analyze` satisfy the same bounds. -/
theorem C4_score_confidence_bounds
    (nlp : Option (String → SpacyFeatures)) (text : String) :
    (-1 ≤ (calculate_sentiment_score nlp text).1 ∧
     (calculate_sentiment_score nlp text).1 ≤ 1 ∧
     0 ≤ (calculate_sentiment_score nlp text).2.2 ∧
     (calculate_sentiment_score nlp text).2.2 ≤ 1) ∧
    ∃ s c : ℚ,
      List.lookup "score" (analyze nlp text) = some (PyVal.num s) ∧
      List.lookup "confidence" (analyze nlp text) = some (PyVal.num c) ∧
      -1 ≤ s ∧ s ≤ 1 ∧ 0 ≤ c ∧ c ≤ 1 := by
  obtain ⟨h1, h2, h3, h4⟩ := calc_bounds nlp text
  refine ⟨⟨h1, h2, h3, h4⟩, ?_⟩
  by_cases hg : text = "" ∨ strippedEmpty text
  · refine ⟨0, 0, ?_, ?_, by norm_num, by norm_num, le_refl 0, by norm_num⟩ <;>
      rw [analyze_empty nlp text hg] <;> simp [List.lookup]
  · obtain ⟨hr1, hr2⟩ := round3_bounds _ h1 h2
    obtain ⟨hc1, hc2⟩ := round3_bounds01 _ h3 h4
    refine ⟨round3 (calculate_sentiment_score nlp text).1,
      round3 (calculate_sentiment_score nlp text).2.2,
      ?_, ?_, hr1, hr2, hc1, hc2⟩ <;>
      rw [analyze_nonempty nlp text hg] <;> simp [List.lookup]

/-- C5: the two no-signal paths are distinct. Empty or whitespace-only
input short-circuits `analyze` with confidence `0.0`; a non-empty input
whose aggregated total `pos_score + neg_score` is `0` goes through
`calculate_sentiment_score` and gets confidence `0.5` (and the extra
`model` field). In both cases score `0.0` and label `"Nötr"`. -/
theorem C5_no_signal_paths
    (nlp : Option (String → SpacyFeatures)) (text : String) :
    ((text = "" ∨ strippedEmpty text) →
      analyze nlp text =
        [("score", PyVal.num 0), ("label", PyVal.str "Nötr"),
         ("confidence", PyVal.num 0), ("polarity", PyVal.num 0),
         ("subjectivity", PyVal.num 0.5)]) ∧
    (¬(text = "" ∨ strippedEmpty text) →
      (scorePair nlp text).1 + (scorePair nlp text).2 = 0 →
      analyze nlp text =
        [("score", PyVal.num 0), ("label", PyVal.str "Nötr"),
         ("confidence", PyVal.num 0.5), ("polarity", PyVal.num 0),
         ("subjectivity", PyVal.num 0.5),
         ("model", PyVal.str "Turkish Lexicon + Features")]) := by
  constructor
  · exact analyze_empty nlp text
  · intro hg h0
    rw [analyze_nonempty nlp text hg]
    have hc : calculate_sentiment_score nlp text = (0, "Nötr", 0.5) := by
      rw [calculate_sentiment_score, labelOf_zero _ h0]
    rw [hc]
    norm_num [round3_zero, round3_half]

/-- C5 witness: both paths evaluated at concrete inputs — the empty string
and `"merhaba"` (a non-empty text with no lexicon, emoji, intensifier or
negation signal, hence total `0`). -/
theorem C5_no_signal_paths_witness :
    ("" = "" ∨ strippedEmpty "") ∧
    analyze none "" =
      [("score", PyVal.num 0), ("label", PyVal.str "Nötr"),
       ("confidence", PyVal.num 0), ("polarity", PyVal.num 0),
       ("subjectivity", PyVal.num 0.5)] ∧
    ¬("merhaba" = "" ∨ strippedEmpty "merhaba") ∧
    (scorePair none "merhaba").1 + (scorePair none "merhaba").2 = 0 ∧
    analyze none "merhaba" =
      [("score", PyVal.num 0), ("label", PyVal.str "Nötr"),
       ("confidence", PyVal.num 0.5), ("polarity", PyVal.num 0),
       ("subjectivity", PyVal.num 0.5),
       ("model", PyVal.str "Turkish Lexicon + Features")] :=
  ⟨Or.inl rfl,
   (C5_no_signal_paths none "").1 (Or.inl rfl),
   by decide,
   by rw [scorePair_merhaba]; norm_num,
   (C5_no_signal_paths none "merhaba").2 (by decide)
     (by rw [scorePair_merhaba]; norm_num)⟩

/-- C6 (amended): the negation loop fires only on the first negation
marker — it swaps `(pos, neg)` to `(neg*0.7, pos*0.7)` and stops, so later
tokens (including further negation markers) are invisible to the negation
step; and *appending* extra negation markers at the end of a token sequence
that already contains a negation marker leaves the final score pair (and
hence score, label, confidence) unchanged.  The claim's stronger statement
— that *any* insertion of extra negation markers after the first leaves the
score unchanged — is false, because an inserted marker can displace the
look-ahead token of an intensifier (see the counterexample). -/
theorem C6_first_negation_only :
    (∀ (pre : List String) (w : String) (post : List String) (p n : ℚ),
      (∀ x ∈ pre, negations.contains x = false) →
      negations.contains w = true →
      applyNegation (pre ++ w :: post) (p, n) = (n * 0.7, p * 0.7)) ∧
    (∀ (ws extra : List String) (pe ne ex : Nat),
      (∃ x ∈ ws, negations.contains x = true) →
      (∀ x ∈ extra, negations.contains x = true) →
      labelOf (finalScores (ws ++ extra) pe ne ex) =
        labelOf (finalScores ws pe ne ex)) := by
  constructor
  · exact applyNegation_first
  · intro ws extra pe ne ex hws hextra
    rw [finalScores_append_negations ws extra pe ne ex hws hextra]

/-- C6 witness: the swap-and-stop behaviour on a concrete token sequence
(the second negation marker `"asla"` after the first, `"hiç"`, is ignored),
and append-invariance for `["hiç", "güzel"] ++ ["yok"]`. -/
theorem C6_first_negation_only_witness :
    applyNegation (["güzel"] ++ "hiç" :: ["asla"]) ((1 : ℚ), (0 : ℚ)) =
      ((0 : ℚ) * 0.7, (1 : ℚ) * 0.7) ∧
    labelOf (finalScores (["hiç", "güzel"] ++ ["yok"]) 0 0 0) =
      labelOf (finalScores ["hiç", "güzel"] 0 0 0) :=
  ⟨C6_first_negation_only.1 ["güzel"] "hiç" ["asla"] 1 0 (by decide)
      (by decide),
   C6_first_negation_only.2 ["hiç", "güzel"] ["yok"] 0 0 0
      ⟨"hiç", by decide, by decide⟩ (by decide)⟩

/-- C6 counterexample: `"hiç güzel çok kötü"` and
`"hiç güzel çok yok kötü"` differ only after the first negation marker
(`"hiç"`, the first token) by inserting the additional negation marker
`"yok"`, yet they do not score identically: the inserted `"yok"` sits
between the intensifier `"çok"` and the lexicon word `"kötü"`, killing the
intensifier credit, so the scores are `3/11` (label `"Pozitif"`) versus `0`
(label `"Nötr"`). -/
theorem C6_counterexample :
    (calculate_sentiment_score none "hiç güzel çok kötü").1 = 3 / 11 ∧
    (calculate_sentiment_score none "hiç güzel çok yok kötü").1 = 0 ∧
    calculate_sentiment_score none "hiç güzel çok kötü" ≠
      calculate_sentiment_score none "hiç güzel çok yok kötü" := by
  refine ⟨by rw [calc_hic1], by rw [calc_hic2], ?_⟩
  rw [calc_hic1, calc_hic2]
  intro h
  have h1 := congrArg Prod.fst h
  norm_num at h1

/-- C7 (amended): the intensifier loop decomposes into independent additive
contributions: each intensifier token with multiplier `m` contributes
`0.5 * m` to `posScore` exactly when the immediately following token is a
positive lexicon word, and `0.5 * m` to `negScore` exactly when the
immediately following token is a negative lexicon word *that is not also a
positive word* (the source's `elif` gives the positive branch priority — the
restriction matters only for the overlap word `"hayal"`); an intensifier
that is the last token contributes nothing. -/
theorem C7_intensifier_lookahead :
    ∀ (ws : List String) (p n : ℚ),
      applyIntensifiers ws (p, n) =
        (p + intensPosSpec ws, n + intensNegSpec ws) :=
  applyIntensifiers_eq

/-- C7 counterexample: `"hayal"` is a negative lexicon word, yet the
intensifier `"çok"` (multiplier `1.5`) followed by `"hayal"` contributes
`0.75` to `posScore` and *nothing* to `negScore` (because `"hayal"` is also
a positive word and the source tests positive membership first), refuting
“`0.5 * m` to negScore exactly when the following token is a negative
lexicon word”. -/
theorem C7_counterexample :
    negative_words.contains "hayal" = true ∧
    List.lookup "çok" intensifiers = some 1.5 ∧
    applyIntensifiers ["çok", "hayal"] (0, 0) = (0.75, 0) := by
  refine ⟨by decide, by simp [intensifiers, List.lookup], ?_⟩
  simp +decide only [applyIntensifiers, List.lookup, intensifiers]
  norm_num

/-- C8: on the non-zero-total path, the label is `"Pozitif"` iff the score
exceeds `0.2`, `"Negatif"` iff it is below `-0.2`, `"Nötr"` iff it lies in
`[-0.2, 0.2]` (so the boundaries themselves are Neutral), and the
confidence equals `min(|score| + 0.3, 1)`. -/
theorem C8_label_thresholds
    (nlp : Option (String → SpacyFeatures)) (text : String)
    (h : (scorePair nlp text).1 + (scorePair nlp text).2 ≠ 0) :
    ((calculate_sentiment_score nlp text).2.1 = "Pozitif" ↔
      0.2 < (calculate_sentiment_score nlp text).1) ∧
    ((calculate_sentiment_score nlp text).2.1 = "Negatif" ↔
      (calculate_sentiment_score nlp text).1 < -0.2) ∧
    ((calculate_sentiment_score nlp text).2.1 = "Nötr" ↔
      (-0.2 ≤ (calculate_sentiment_score nlp text).1 ∧
        (calculate_sentiment_score nlp text).1 ≤ 0.2)) ∧
    (calculate_sentiment_score nlp text).2.2 =
      min (|(calculate_sentiment_score nlp text).1| + 0.3) 1 := by
  have hc : calculate_sentiment_score nlp text =
      labelOf (scorePair nlp text) := rfl
  rw [hc]
  exact labelOf_spec (scorePair nlp text) h

/-- C8 witness: the thresholds theorem applied to the concrete text
`"güzel"`, whose total is `1 ≠ 0`. -/
theorem C8_label_thresholds_witness :
    (scorePair none "güzel").1 + (scorePair none "güzel").2 ≠ 0 ∧
    ((calculate_sentiment_score none "güzel").2.1 = "Pozitif" ↔
      0.2 < (calculate_sentiment_score none "güzel").1) := by
  have h : (scorePair none "güzel").1 + (scorePair none "güzel").2 ≠ 0 := by
    rw [scorePair_guzel]
    norm_num
  exact ⟨h, (C8_label_thresholds none "güzel" h).1⟩

/-- C9: two-run noninterference over the optional annotator — for every
text, the result of `calculate_sentiment_score` and of `analyze` is the
same whatever annotator (or none) is supplied: the spaCy-derived feature
fields are recorded in the feature record but never read by the scoring
formula. -/
theorem C9_annotator_noninterference
    (nlp₁ nlp₂ : Option (String → SpacyFeatures)) (text : String) :
    calculate_sentiment_score nlp₁ text = calculate_sentiment_score nlp₂ text ∧
    analyze nlp₁ text = analyze nlp₂ text :=
  ⟨rfl, rfl⟩

/-- C10: the record returned by `analyze` on the empty/whitespace path has
exactly the five keys `score`, `label`, `confidence`, `polarity`,
`subjectivity`; on the non-empty path it has those five plus the extra
`model` key bound to the fixed string `"Turkish Lexicon + Features"`, so
the two paths return records with different key sets. -/
theorem C10_model_field
    (nlp : Option (String → SpacyFeatures)) (text : String) :
    ((text = "" ∨ strippedEmpty text) →
      (analyze nlp text).map Prod.fst =
        ["score", "label", "confidence", "polarity", "subjectivity"]) ∧
    (¬(text = "" ∨ strippedEmpty text) →
      (analyze nlp text).map Prod.fst =
        ["score", "label", "confidence", "polarity", "subjectivity",
         "model"] ∧
      List.lookup "model" (analyze nlp text) =
        some (PyVal.str "Turkish Lexicon + Features")) := by
  constructor
  · intro hg
    rw [analyze_empty nlp text hg]
    rfl
  · intro hg
    rw [analyze_nonempty nlp text hg]
    exact ⟨rfl, by simp [List.lookup]⟩

/-- C10 witness: key sets evaluated at the empty string and at the
non-empty input `"a"`. -/
theorem C10_model_field_witness :
    ("" = "" ∨ strippedEmpty "") ∧
    (analyze none "").map Prod.fst =
      ["score", "label", "confidence", "polarity", "subjectivity"] ∧
    ¬("a" = "" ∨ strippedEmpty "a") ∧
    List.lookup "model" (analyze none "a") =
      some (PyVal.str "Turkish Lexicon + Features") :=
  ⟨Or.inl rfl,
   (C10_model_field none "").1 (Or.inl rfl),
   by decide,
   ((C10_model_field none "a").2 (by decide)).2⟩

end TurkishSentiment
